import Mathlib

/-!
# paqet: transient-error classification and the SOCKS5 connect bridge

A shallow embedding of `internal/pkg/errors/errors.go` (the retry classifier) and of
`internal/socks/tcp_handle.go` (the reply encoder and the connect bridge), with the
properties of the specification stated and proved over it.

Definitions come first, theorems afterwards.
-/

namespace Paqet

/-! ## Go error values -/

/-- A value of Go's `error` interface, as far as the classifier can observe it.

* `nil` is the nil interface value.
* `ioEOF`, `canceled`, `deadlineExceeded` are the sentinels `io.EOF`, `context.Canceled`
  and `context.DeadlineExceeded`.
* `errno code` is a `syscall.Errno`.
* `syscallError Syscall Err` is a non-nil `*os.SyscallError`; its `Unwrap` returns `Err`.
* `other netError isCanceled isDeadline unwrap` is a value of any other error type:
  `netError` says whether the type has the `Timeout` and `Temporary` methods of `net.Error`,
  `isCanceled` / `isDeadline` are the answers of its `Is` method (false when it has none) for
  the two context sentinels, and `unwrap` lists what `Unwrap` returns (empty when the type has
  no `Unwrap` or it returns nil, one element for `Unwrap() error`, the slice for
  `Unwrap() []error`).

Error types with an `As` method are outside the model. -/
inductive GoError where
  | nil
  | ioEOF
  | canceled
  | deadlineExceeded
  | errno (code : Nat)
  | syscallError (Syscall : String) (Err : GoError)
  | other (netError : Bool) (isCanceled : Bool) (isDeadline : Bool) (unwrap : List GoError)

/-- The two targets the classifier passes to `errors.Is`. -/
inductive Target where
  | canceled
  | deadlineExceeded
deriving DecidableEq

/-- The sentinel error a target stands for. -/
def Target.toError : Target → GoError
  | .canceled => .canceled
  | .deadlineExceeded => .deadlineExceeded

/-- Test `err == nil`. -/
def GoError.isNil : GoError → Bool
  | .nil => true
  | _ => false

/-- Test `err == io.EOF`, an identity comparison of interface values. -/
def GoError.isEOF : GoError → Bool
  | .ioEOF => true
  | _ => false

/-- Test `errno == k` for an interface value `errno` and a `syscall.Errno` constant `k`:
true exactly when the dynamic value is the `syscall.Errno` `k`. -/
def GoError.eqErrno : GoError → Nat → Bool
  | .errno c, k => c == k
  | _, _ => false

/-! Values of the errno constants on linux; the theorems do not depend on the numbers. -/

/-- Constant `syscall.ECONNRESET`. -/
def ECONNRESET : Nat := 104
/-- Constant `syscall.EPIPE`. -/
def EPIPE : Nat := 32
/-- Constant `syscall.ECONNABORTED`. -/
def ECONNABORTED : Nat := 103
/-- Constant `syscall.ETIMEDOUT`. -/
def ETIMEDOUT : Nat := 110
/-- Constant `syscall.ECONNREFUSED`. -/
def ECONNREFUSED : Nat := 111
/-- Constant `syscall.EHOSTUNREACH`. -/
def EHOSTUNREACH : Nat := 113
/-- Constant `syscall.ENETUNREACH`. -/
def ENETUNREACH : Nat := 101

/-- The seven errno values the classifier lists. -/
def transientErrnos : List Nat :=
  [ECONNRESET, EPIPE, ECONNABORTED, ETIMEDOUT, ECONNREFUSED, EHOSTUNREACH, ENETUNREACH]

mutual
/-- Go's `errors.Is(err, t)` for a context sentinel `t`: walk the `Unwrap` tree depth first,
at each node report a match when the node is the sentinel itself or its `Is` method says so.
`io.EOF`, `syscall.Errno` and `*os.SyscallError` are never identical to a context sentinel and
their `Is` methods (where present) do not answer for one. -/
def errorsIs (t : Target) : GoError → Bool
  | .nil => false
  | .ioEOF => false
  | .canceled => decide (t = .canceled)
  | .deadlineExceeded => decide (t = .deadlineExceeded)
  | .errno _ => false
  | .syscallError _ e => errorsIs t e
  | .other _ c d kids =>
      (match t with
        | .canceled => c
        | .deadlineExceeded => d) || errorsIsAny t kids
/-- The loop of `errors.Is` over the slice returned by `Unwrap() []error`. -/
def errorsIsAny (t : Target) : List GoError → Bool
  | [] => false
  | e :: es => errorsIs t e || errorsIsAny t es
end

mutual
/-- Go's `errors.As(err, &netErr)` with `netErr` of type `net.Error`: true when some node of
the `Unwrap` tree has a type assignable to `net.Error`. `syscall.Errno` and the type of
`context.DeadlineExceeded` both have `Timeout` and `Temporary`; `*os.SyscallError` has no
`Temporary`, and the types of `io.EOF` and `context.Canceled` have neither. -/
def errorsAsNetError : GoError → Bool
  | .nil => false
  | .ioEOF => false
  | .canceled => false
  | .deadlineExceeded => true
  | .errno _ => true
  | .syscallError _ e => errorsAsNetError e
  | .other n _ _ kids => n || errorsAsNetErrorAny kids
/-- The loop of `errors.As` over the slice returned by `Unwrap() []error`. -/
def errorsAsNetErrorAny : List GoError → Bool
  | [] => false
  | e :: es => errorsAsNetError e || errorsAsNetErrorAny es
end

mutual
/-- Go's `errors.As(err, &syscallErr)` with `syscallErr` of type `*os.SyscallError`: the first
`*os.SyscallError` of the `Unwrap` tree in depth-first order; the result is its `Err` field,
`none` when `errors.As` reports false. -/
def errorsAsSyscallError : GoError → Option GoError
  | .syscallError _ e => some e
  | .other _ _ _ kids => errorsAsSyscallErrorAny kids
  | _ => none
/-- The loop of `errors.As` over the slice returned by `Unwrap() []error`. -/
def errorsAsSyscallErrorAny : List GoError → Option GoError
  | [] => none
  | e :: es =>
      match errorsAsSyscallError e with
      | some x => some x
      | none => errorsAsSyscallErrorAny es
end

/-- The classifier of `errors.go` (its name in the source is the blank identifier). -/
def isRetryable (err : GoError) : Bool :=
  if err.isNil || err.isEOF then
    false
  else if errorsIs .canceled err || errorsIs .deadlineExceeded err then
    false
  else if errorsAsNetError err then
    true
  else
    match errorsAsSyscallError err with
    | some errno =>
        errno.eqErrno ECONNRESET ||
        errno.eqErrno EPIPE ||
        errno.eqErrno ECONNABORTED ||
        errno.eqErrno ETIMEDOUT ||
        errno.eqErrno ECONNREFUSED ||
        errno.eqErrno EHOSTUNREACH ||
        errno.eqErrno ENETUNREACH
    | none => true

mutual
/-- Every non-nil error of the `Unwrap` tree of `err`, `err` itself first: `x ∈ chain err`
reads "`err` is or wraps `x`". -/
def chain : GoError → List GoError
  | .nil => []
  | .ioEOF => [.ioEOF]
  | .canceled => [.canceled]
  | .deadlineExceeded => [.deadlineExceeded]
  | .errno c => [.errno c]
  | .syscallError s e => .syscallError s e :: chain e
  | .other n c d kids => .other n c d kids :: chainAll kids
/-- The chains of a list of errors, concatenated. -/
def chainAll : List GoError → List GoError
  | [] => []
  | e :: es => chain e ++ chainAll es
end

/-- The error wraps (or is) an `*os.SyscallError` whose `Err` is one of the seven listed
errno values. -/
def wrapsTransientSyscall (err : GoError) : Prop :=
  ∃ s c, c ∈ transientErrnos ∧ GoError.syscallError s (.errno c) ∈ chain err

/-- An `*os.SyscallError` whose `Err` is a plain error value (as made by `errors.New`). -/
def plainSyscallError : GoError :=
  .syscallError "read" (.other false false false [])

/-- The error `errors.Join(context.Canceled, &os.SyscallError{"read", syscall.ECONNRESET})`. -/
def canceledJoinReset : GoError :=
  .other false false false [.canceled, .syscallError "read" (.errno ECONNRESET)]

/-- A `*net.OpError` around an `*os.SyscallError` carrying `EACCES`, an unlisted code. -/
def opErrorEACCES : GoError :=
  .other true false false [.syscallError "connect" (.errno 13)]

/-! ## The reply encoder

Bytes are natural numbers below 256; a conversion to `byte` is an explicit remainder. Go
strings are their byte sequences. -/

/-- Constant `socks5.Ver` of `github.com/txthinking/socks5`. -/
def Ver : Nat := 0x05
/-- Constant `socks5.RepSuccess`. -/
def RepSuccess : Nat := 0x00
/-- Constant `socks5.ATYPIPv4`. -/
def ATYPIPv4 : Nat := 0x01
/-- Constant `socks5.ATYPDomain`. -/
def ATYPDomain : Nat := 0x03
/-- Constant `socks5.ATYPIPv6`. -/
def ATYPIPv6 : Nat := 0x04

/-- Go's conversion `byte(n)` of an `int`: the low eight bits. -/
def byte (n : Int) : Nat := (n % 256).toNat

/-- Go's `net.IP`, a byte slice. -/
abbrev IP := List Nat

/-- Go's `net.TCPAddr` (the zone plays no part). -/
structure TCPAddr where
  IP : IP
  Port : Int

/-- The 12-byte prefix `v4InV6Prefix` of package `net`. -/
def v4InV6Prefix : List Nat := [0, 0, 0, 0, 0, 0, 0, 0, 0, 0, 0xff, 0xff]

/-- Go's `net.IPv4(a, b, c, d)`: the 16-byte form of an IPv4 address. -/
def IPv4 (a b c d : Nat) : IP := v4InV6Prefix ++ [a, b, c, d]

/-- The helper `isZeros` of package `net`. -/
def isZeros (p : List Nat) : Bool := p.all (fun b => b == 0)

/-- Go's `net.IP.To4`; `none` is the nil result. -/
def IP.To4 (ip : IP) : Option IP :=
  if ip.length = 4 then
    some ip
  else if ip.length = 16 && isZeros (ip.take 10) && ip.getD 10 0 == 0xff
      && ip.getD 11 0 == 0xff then
    some ((ip.take 16).drop 12)
  else
    none

/-- Go's `net.IP.To16`; `none` is the nil result. -/
def IP.To16 (ip : IP) : Option IP :=
  if ip.length = 4 then
    some (IPv4 (ip.getD 0 0) (ip.getD 1 0) (ip.getD 2 0) (ip.getD 3 0))
  else if ip.length = 16 then
    some ip
  else
    none

/-- The digits `hexDigit` of package `net`: the ASCII codes of `0123456789abcdef`. -/
def hexDigit : List Nat :=
  [48, 49, 50, 51, 52, 53, 54, 55, 56, 57, 97, 98, 99, 100, 101, 102]

/-- The helper `hexString` of package `net`: two lower-case hex digits for each byte `tn`,
`hexDigit[tn>>4]` and `hexDigit[tn&0xf]`. -/
def hexString : List Nat → List Nat
  | [] => []
  | tn :: rest => hexDigit.getD (tn % 256 / 16) 0 :: hexDigit.getD (tn % 16) 0 :: hexString rest

/-- Go's `net.IP.String` on an IP whose length is neither 4 nor 16, which is where
`handleTCPConnect` calls it (`To4` and `To16` have both returned nil): the text `<nil>` for
the empty IP, otherwise `?` followed by the hex digits of the bytes. The dotted and colon
forms of valid addresses are not modelled. -/
def IP.String (ip : IP) : List Nat :=
  if ip.length = 0 then
    [60, 110, 105, 108, 62]
  else
    63 :: hexString ip

/-- The reply frame of `handleTCPConnect` (lines 33 to 48): the appends made to `buf`,
starting from the bytes `buf` holds when it is taken from the pool. `addr.Port>>8` is the
floor quotient by 256 and `addr.Port&0xff` the remainder. -/
def buildReply (buf : List Nat) (addr : TCPAddr) : List Nat :=
  let buf := buf ++ [Ver]
  let buf := buf ++ [RepSuccess]
  let buf := buf ++ [0x00]
  let buf :=
    match addr.IP.To4 with
    | some ip4 => (buf ++ [ATYPIPv4]) ++ ip4
    | none =>
      match addr.IP.To16 with
      | some ip6 => (buf ++ [ATYPIPv6]) ++ ip6
      | none =>
        let host := addr.IP.String
        ((buf ++ [ATYPDomain]) ++ [byte host.length]) ++ host
  buf ++ [byte (addr.Port / 256), byte (addr.Port % 256)]

/-! ## The connect bridge -/

/-- A byte slice as stored in the pool: its backing array and its length. -/
structure Slice where
  array : List Nat
  len : Nat

/-- The bytes a slice holds, the first `len` of its backing array. -/
def Slice.bytes (s : Slice) : List Nat := s.array.take s.len

/-- The two relay loops: `buffer.Copy(conn, strm)` and `buffer.Copy(strm, conn)`. -/
inductive Relay where
  | connFromStrm
  | strmFromConn

/-- Levels of the `flog` calls. -/
inductive Level where
  | debug
  | info
  | error

/-- What `handleTCPConnect` does to its collaborators, in order. -/
inductive Event where
  | log (l : Level)
  | poolGet
  | poolPut
  | connWrite (buf : List Nat)
  | clientTCP (address : String)
  | strmClose (sid : Nat)
  | goCopy (r : Relay)
  | recvErrCh (err : GoError)
  | ctxDone

/-- The case of the `select` statement that fires. -/
inductive Selected where
  | errCh (err : GoError)
  | ctxDone

/-- What the collaborators answer during one call of `handleTCPConnect`. -/
structure Env where
  /-- The result of `conn.LocalAddr()`. -/
  localAddr : TCPAddr
  /-- The slice `*bufp` that `rPool.Get()` hands out. -/
  pooled : Slice
  /-- The error returned by `conn.Write(buf)`. -/
  writeErr : GoError
  /-- The id of the stream returned by `h.client.TCP`. -/
  sid : Nat
  /-- The error returned by `h.client.TCP`. -/
  tcpErr : GoError
  /-- The case of `select` that fires, with the value received from `errCh`. -/
  selected : Selected

/-- The method `handleTCPConnect`: the events it causes and the error it returns. The deferred
calls run at each return, last registered first. -/
def handleTCPConnect (env : Env) (address : String) : List Event × GoError :=
  let buf := buildReply env.pooled.bytes env.localAddr
  let t := [Event.log .info, .poolGet, .connWrite buf]
  if !env.writeErr.isNil then
    (t ++ [.poolPut], env.writeErr)
  else
    let t := t ++ [.clientTCP address]
    if !env.tcpErr.isNil then
      (t ++ [.log .error, .poolPut], env.tcpErr)
    else
      let t := t ++ [.log .debug, .goCopy .connFromStrm, .goCopy .strmFromConn]
      let t :=
        match env.selected with
        | .errCh err => t ++ [.recvErrCh err] ++ (if !err.isNil then [.log .error] else [])
        | .ctxDone => t ++ [.ctxDone, .log .debug]
      (t ++ [.log .debug, .strmClose env.sid, .poolPut], .nil)

/-- The buffers passed to `conn.Write`, in order. -/
def writes : List Event → List (List Nat)
  | [] => []
  | .connWrite buf :: t => buf :: writes t
  | _ :: t => writes t

/-- The IPv6 address `2001:db8::1`. -/
def docAddr6 : IP := [0x20, 0x01, 0x0d, 0xb8, 0, 0, 0, 0, 0, 0, 0, 0, 0, 0, 0, 1]

/-- A call on a connection bound to `127.0.0.1:1080` in which the pool hands out a slice that
holds one stale byte. -/
def staleEnv : Env :=
  { localAddr := ⟨[127, 0, 0, 1], 1080⟩, pooled := ⟨[0xAA, 0xBB], 1⟩, writeErr := .nil,
    sid := 7, tcpErr := .nil, selected := .ctxDone }

/-- A call in which the pool hands out an empty slice over a used backing array. -/
def reusedEnv : Env :=
  { localAddr := ⟨[127, 0, 0, 1], 1080⟩, pooled := ⟨[0xAA, 0xBB], 0⟩, writeErr := .nil,
    sid := 7, tcpErr := .nil, selected := .ctxDone }

/-- A call in which the reply is written and `h.client.TCP` then fails. -/
def refusedEnv : Env :=
  { localAddr := ⟨[127, 0, 0, 1], 1080⟩, pooled := ⟨[], 0⟩, writeErr := .nil,
    sid := 0, tcpErr := opErrorEACCES, selected := .ctxDone }

/-- A call in which writing the reply to the local connection fails. -/
def brokenPipeEnv : Env :=
  { localAddr := ⟨[127, 0, 0, 1], 1080⟩, pooled := ⟨[], 0⟩, writeErr := opErrorEACCES,
    sid := 0, tcpErr := .nil, selected := .ctxDone }

/-- A call in which the stream is opened and a relay loop then reports an error. -/
def relayFailedEnv : Env :=
  { localAddr := ⟨[127, 0, 0, 1], 1080⟩, pooled := ⟨[], 0⟩, writeErr := .nil,
    sid := 7, tcpErr := .nil, selected := .errCh opErrorEACCES }

/-- The event is a write to the local connection. -/
def Event.isWrite : Event → Bool
  | .connWrite _ => true
  | _ => false

/-- The event is the open-stream call `h.client.TCP`. -/
def Event.isOpen : Event → Bool
  | .clientTCP _ => true
  | _ => false

/-- The event is the start of a relay loop. -/
def Event.isRelayStart : Event → Bool
  | .goCopy _ => true
  | _ => false

/-- The streams on which `Close` is called, in order. -/
def closes : List Event → List Nat
  | [] => []
  | .strmClose sid :: t => sid :: closes t
  | _ :: t => closes t

/-- Scanning a trace from its start, an event satisfying `p` is met strictly before any
event satisfying `q` (or no event satisfies `q`). -/
def precededBy (p q : Event → Bool) : List Event → Bool
  | [] => true
  | e :: t => !q e && (p e || precededBy p q t)

/-! ## The command dispatcher -/

/-- Constant `socks5.CmdConnect`. -/
def CmdConnect : Nat := 0x01
/-- Constant `socks5.CmdBind`. -/
def CmdBind : Nat := 0x02
/-- Constant `socks5.CmdUDP`. -/
def CmdUDP : Nat := 0x03

/-- What `TCPHandle` does, in order: a `flog` call, the call of `handleUDPAssociate`, or the
call of `handleTCPConnect` together with the events that call causes. -/
inductive Step where
  | log (l : Level)
  | handleUDPAssociate
  | handleTCPConnect (events : List Event)

/-- The method `TCPHandle` on a request with command `cmd`. The method `handleUDPAssociate`
is not in the two source files: the error it returns is the parameter `udpErr`. -/
def TCPHandle (cmd : Nat) (udpErr : GoError) (env : Env) (address : String) :
    List Step × GoError :=
  if cmd == CmdUDP then
    ([.log .debug, .handleUDPAssociate], udpErr)
  else if cmd == CmdConnect then
    let r := handleTCPConnect env address
    ([.log .debug, .handleTCPConnect r.1], r.2)
  else
    ([.log .debug], .nil)

/-! ## The result channel

The part of `handleTCPConnect` from `make(chan error, 2)` on, as a transition system over
the interleavings of the two relay goroutines and the `select` of the calling goroutine. -/

/-- Where a relay goroutine stands: inside `buffer.Copy`, at `errCh <- err` with the error
`buffer.Copy` returned, or finished. -/
inductive Goroutine where
  | copying
  | sending (err : GoError)
  | done

/-- Where the calling goroutine stands: at the `select`, past it with the value received
from `errCh`, or past it because `h.ctx.Done()` fired. -/
inductive Orchestrator where
  | selecting
  | received (err : GoError)
  | shutdown

/-- The capacity of `errCh`, the second argument of `make(chan error, 2)`. -/
def errChCap : Nat := 2

/-- The state of one bridged connection once both relay goroutines are started. -/
structure Bridge where
  /-- The values buffered in `errCh`, oldest first. -/
  errCh : List GoError
  /-- The goroutine running `buffer.Copy(conn, strm)`. -/
  connFromStrm : Goroutine
  /-- The goroutine running `buffer.Copy(strm, conn)`. -/
  strmFromConn : Goroutine
  /-- The goroutine that called `handleTCPConnect`. -/
  main : Orchestrator
  /-- The number of sends on `errCh` completed so far. -/
  sent : Nat
  /-- The number of receives from `errCh` completed so far. -/
  recvd : Nat

/-- The state right after the two `go` statements. -/
def Bridge.start : Bridge :=
  { errCh := [], connFromStrm := .copying, strmFromConn := .copying, main := .selecting,
    sent := 0, recvd := 0 }

/-- The state of a relay goroutine. -/
def Bridge.relay (s : Bridge) : Relay → Goroutine
  | .connFromStrm => s.connFromStrm
  | .strmFromConn => s.strmFromConn

/-- Update of the state of a relay goroutine. -/
def Bridge.setRelay (s : Bridge) (r : Relay) (g : Goroutine) : Bridge :=
  match r with
  | .connFromStrm => { s with connFromStrm := g }
  | .strmFromConn => { s with strmFromConn := g }

/-- The moves of the system: `buffer.Copy` returns in a relay goroutine, a relay goroutine
completes its send, the `select` receives from `errCh`, the `select` sees `h.ctx.Done()`. -/
inductive Action where
  | copyReturns (r : Relay) (err : GoError)
  | send (r : Relay)
  | recv
  | ctxDone

/-- One move; `none` when the move is not possible in the state. A send on the buffered
channel is possible only while fewer than `errChCap` values are buffered: otherwise the
sender blocks. A receive takes the oldest buffered value. -/
def Bridge.step (s : Bridge) : Action → Option Bridge
  | .copyReturns r err =>
      match s.relay r with
      | .copying => some (s.setRelay r (.sending err))
      | _ => none
  | .send r =>
      match s.relay r with
      | .sending err =>
          if s.errCh.length < errChCap then
            some { s.setRelay r .done with errCh := s.errCh ++ [err], sent := s.sent + 1 }
          else
            none
      | _ => none
  | .recv =>
      match s.main, s.errCh with
      | .selecting, err :: rest =>
          some { s with main := .received err, errCh := rest, recvd := s.recvd + 1 }
      | _, _ => none
  | .ctxDone =>
      match s.main with
      | .selecting => some { s with main := .shutdown }
      | _ => none

/-- A sequence of moves from a state. -/
def Bridge.run (s : Bridge) : List Action → Option Bridge
  | [] => some s
  | a :: rest =>
      match s.step a with
      | some s2 => s2.run rest
      | none => none

/-- The relay goroutine is blocked: it stands at its send and the send is not possible. -/
def Bridge.blocked (s : Bridge) (r : Relay) : Bool :=
  match s.relay r with
  | .sending _ => (s.step (.send r)).isNone
  | _ => false

/-- The orchestrator is past the `select` because of shutdown. -/
def Orchestrator.isShutdown : Orchestrator → Bool
  | .shutdown => true
  | _ => false

/-- An interleaving in which both relay loops finish only after shutdown made the caller
return. -/
def lateSends : List Action :=
  [.copyReturns .connFromStrm .ioEOF, .ctxDone, .send .connFromStrm,
    .copyReturns .strmFromConn opErrorEACCES, .send .strmFromConn]

/-- The number of completed sends a relay goroutine accounts for: one when it is finished. -/
def Goroutine.finished : Goroutine → Nat
  | .done => 1
  | _ => 0

/-- The number of completed receives the calling goroutine accounts for. -/
def Orchestrator.receives : Orchestrator → Nat
  | .received _ => 1
  | _ => 0

/-- The invariant of the result channel: every completed send belongs to a finished relay
goroutine, every sent value is either still buffered or was received, and a value was
received exactly when the `select` took the `errCh` case. -/
def Bridge.Inv (s : Bridge) : Prop :=
  s.sent = s.connFromStrm.finished + s.strmFromConn.finished ∧
  s.errCh.length + s.recvd = s.sent ∧
  s.recvd = s.main.receives

/-- A dial timeout: a `*net.OpError` around the timeout error of package `net`, a
`net.Error` whose `Is` method answers true for `context.DeadlineExceeded`. -/
def dialTimeout : GoError :=
  .other true false false [.other true false true []]

/-- The join of `io.EOF` and the cancellation error of package `net`, whose `Is` method
answers true for `context.Canceled` and which has no `Timeout` or `Temporary`. -/
def eofJoinCanceled : GoError :=
  .other false false false [.ioEOF, .other false true false []]

/-- Constant `syscall.EACCES`, a code the classifier does not list. -/
def EACCES : Nat := 13

/-- The error `&os.SyscallError{"connect", syscall.EACCES}`. -/
def unlistedSyscallError : GoError :=
  .syscallError "connect" (.errno EACCES)

/-- An `*os.SyscallError` whose `Err` is an `*os.SyscallError` carrying `ECONNRESET`: a
listed code one level deeper. -/
def nestedSyscallError : GoError :=
  .syscallError "write" (.syscallError "read" (.errno ECONNRESET))

/-! ## Lemmas on the error chain -/

mutual
/-- An error that is or wraps a context sentinel matches it under `errors.Is`. -/
theorem errorsIs_of_mem_chain (t : Target) :
    ∀ err : GoError, t.toError ∈ chain err → errorsIs t err = true
  | .nil, h => by simp [chain] at h
  | .ioEOF, h => by cases t <;> simp [chain, Target.toError] at h
  | .canceled, h => by cases t <;> simp [chain, Target.toError, errorsIs] at h ⊢
  | .deadlineExceeded, h => by cases t <;> simp [chain, Target.toError, errorsIs] at h ⊢
  | .errno _, h => by cases t <;> simp [chain, Target.toError] at h
  | .syscallError _ e, h => by
      have h2 : t.toError ∈ chain e := by
        cases t <;> simpa [chain, Target.toError] using h
      simpa [errorsIs] using errorsIs_of_mem_chain t e h2
  | .other _ _ _ kids, h => by
      have h2 : t.toError ∈ chainAll kids := by
        cases t <;> simpa [chain, Target.toError] using h
      simp [errorsIs, errorsIsAny_of_mem_chainAll t kids h2]
/-- The list form of `errorsIs_of_mem_chain`. -/
theorem errorsIsAny_of_mem_chainAll (t : Target) :
    ∀ es : List GoError, t.toError ∈ chainAll es → errorsIsAny t es = true
  | [], h => by simp [chainAll] at h
  | e :: es, h => by
      rcases List.mem_append.mp (by simpa [chainAll] using h) with h1 | h1
      · simp [errorsIsAny, errorsIs_of_mem_chain t e h1]
      · simp [errorsIsAny, errorsIsAny_of_mem_chainAll t es h1]
end

mutual
/-- A `net.Error` anywhere in the chain is found by `errors.As`. -/
theorem errorsAsNetError_of_mem_chain (x : GoError) (hx : errorsAsNetError x = true) :
    ∀ err : GoError, x ∈ chain err → errorsAsNetError err = true
  | .nil, h => by simp [chain] at h
  | .ioEOF, h => by
      have h1 : x = .ioEOF := by simpa [chain] using h
      simpa [h1] using hx
  | .canceled, h => by
      have h1 : x = .canceled := by simpa [chain] using h
      simpa [h1] using hx
  | .deadlineExceeded, _ => by simp [errorsAsNetError]
  | .errno _, _ => by simp [errorsAsNetError]
  | .syscallError s e, h => by
      rcases List.mem_cons.mp (by simpa [chain] using h) with h1 | h1
      · simpa [h1] using hx
      · simpa [errorsAsNetError] using errorsAsNetError_of_mem_chain x hx e h1
  | .other n c d kids, h => by
      rcases List.mem_cons.mp (by simpa [chain] using h) with h1 | h1
      · simpa [h1] using hx
      · simp [errorsAsNetError, errorsAsNetErrorAny_of_mem_chainAll x hx kids h1]
/-- The list form of `errorsAsNetError_of_mem_chain`. -/
theorem errorsAsNetErrorAny_of_mem_chainAll (x : GoError) (hx : errorsAsNetError x = true) :
    ∀ es : List GoError, x ∈ chainAll es → errorsAsNetErrorAny es = true
  | [], h => by simp [chainAll] at h
  | e :: es, h => by
      rcases List.mem_append.mp (by simpa [chainAll] using h) with h1 | h1
      · simp [errorsAsNetErrorAny, errorsAsNetError_of_mem_chain x hx e h1]
      · simp [errorsAsNetErrorAny, errorsAsNetErrorAny_of_mem_chainAll x hx es h1]
end

/-! ## The classifier -/

/-- C1: an error for which `errors.Is(err, context.Canceled)` or
`errors.Is(err, context.DeadlineExceeded)` holds, in particular one that is or wraps either
sentinel at any depth, whatever else it is or wraps, is classified as not retryable. -/
theorem isRetryable_context_error (err : GoError)
    (h : errorsIs .canceled err = true ∨ errorsIs .deadlineExceeded err = true ∨
      GoError.canceled ∈ chain err ∨ GoError.deadlineExceeded ∈ chain err) :
    isRetryable err = false := by
  have h1 : errorsIs .canceled err = true ∨ errorsIs .deadlineExceeded err = true := by
    rcases h with h | h | h | h
    · exact Or.inl h
    · exact Or.inr h
    · exact Or.inl (errorsIs_of_mem_chain .canceled err h)
    · exact Or.inr (errorsIs_of_mem_chain .deadlineExceeded err h)
  unfold isRetryable
  rcases h1 with h1 | h1 <;> simp [h1]

/-- Witness of C1: `context.Canceled` joined with a connection reset is not retryable. -/
theorem isRetryable_context_error_witness : isRetryable canceledJoinReset = false :=
  isRetryable_context_error canceledJoinReset
    (Or.inl (by simp [canceledJoinReset, errorsIs, errorsIsAny]))

/-- Counterexample to C2: an `*os.SyscallError` around a plain error is non-nil, is not
`io.EOF`, matches neither context sentinel, holds no `net.Error` and no errno at all, and yet
it is classified as not retryable. -/
theorem isRetryable_unrecognized_counterexample :
    plainSyscallError.isNil = false ∧ plainSyscallError.isEOF = false ∧
    errorsIs .canceled plainSyscallError = false ∧
    errorsIs .deadlineExceeded plainSyscallError = false ∧
    errorsAsNetError plainSyscallError = false ∧
    (∀ c, GoError.errno c ∉ chain plainSyscallError) ∧
    ¬ wrapsTransientSyscall plainSyscallError ∧
    isRetryable plainSyscallError = false := by
  refine ⟨rfl, rfl, rfl, rfl, rfl, ?_, ?_, rfl⟩
  · intro c
    simp [plainSyscallError, chain, chainAll]
  · rintro ⟨s, c, _, h⟩
    simp [plainSyscallError, chain, chainAll] at h

/-- C2, amended: a non-nil error that is not `io.EOF`, matches neither context sentinel, is
not recognized as a `net.Error`, wraps none of the seven listed syscall codes and in whose
chain `errors.As` finds no `*os.SyscallError` is retryable. -/
theorem isRetryable_unrecognized (err : GoError)
    (hnil : err.isNil = false) (heof : err.isEOF = false)
    (hc : errorsIs .canceled err = false) (hd : errorsIs .deadlineExceeded err = false)
    (hnet : errorsAsNetError err = false) (_hcode : ¬ wrapsTransientSyscall err)
    (hsys : errorsAsSyscallError err = none) :
    isRetryable err = true := by
  simp [isRetryable, hnil, heof, hc, hd, hnet, hsys]

/-- Witness of C2, amended: a plain error wrapping `io.EOF` is retryable. -/
theorem isRetryable_unrecognized_witness :
    isRetryable (.other false false false [.ioEOF]) = true :=
  isRetryable_unrecognized (.other false false false [.ioEOF]) rfl rfl rfl rfl rfl
    (by
      rintro ⟨s, c, _, h⟩
      simp [chain, chainAll] at h)
    rfl

/-- Counterexample to C3: the join of `context.Canceled` and an `*os.SyscallError` carrying
`ECONNRESET` wraps a listed syscall code and is classified as not retryable. -/
theorem isRetryable_transient_syscall_counterexample :
    wrapsTransientSyscall canceledJoinReset ∧ isRetryable canceledJoinReset = false := by
  refine ⟨⟨"read", ECONNRESET, by simp [transientErrnos], ?_⟩, rfl⟩
  simp [canceledJoinReset, chain, chainAll]

/-- C3, amended: an error that wraps an `*os.SyscallError` whose code is one of the seven
listed errno values, and that matches neither `context.Canceled` nor
`context.DeadlineExceeded` under `errors.Is`, is retryable. -/
theorem isRetryable_transient_syscall (err : GoError) (h : wrapsTransientSyscall err)
    (hc : errorsIs .canceled err = false) (hd : errorsIs .deadlineExceeded err = false) :
    isRetryable err = true := by
  obtain ⟨s, c, _, hmem⟩ := h
  have hnet : errorsAsNetError err = true :=
    errorsAsNetError_of_mem_chain (.syscallError s (.errno c)) (by simp [errorsAsNetError])
      err hmem
  have hnil : err.isNil = false := by
    cases err <;> simp [GoError.isNil, chain] at hmem ⊢
  have heof : err.isEOF = false := by
    cases err <;> simp [GoError.isEOF, chain] at hmem ⊢
  simp [isRetryable, hnil, heof, hc, hd, hnet]

/-- Witness of C3, amended: a `*net.OpError`-like wrapper around a refused connection. -/
theorem isRetryable_transient_syscall_witness :
    isRetryable (.other false false false [.syscallError "connect" (.errno ECONNREFUSED)])
      = true :=
  isRetryable_transient_syscall _
    ⟨"connect", ECONNREFUSED, by simp [transientErrnos], by simp [chain, chainAll]⟩ rfl rfl

/-- C4: the nil error and `io.EOF` are not retryable. -/
theorem isRetryable_nil_eof :
    isRetryable .nil = false ∧ isRetryable .ioEOF = false :=
  ⟨rfl, rfl⟩

/-- Counterexample to C5: a dial timeout is not nil, is not `io.EOF`, has neither context
sentinel in its chain and is a `net.Error`, and yet it is classified as not retryable: its
inner error matches `context.DeadlineExceeded` through its `Is` method. -/
theorem isRetryable_net_error_counterexample :
    dialTimeout.isNil = false ∧ dialTimeout.isEOF = false ∧
    GoError.canceled ∉ chain dialTimeout ∧ GoError.deadlineExceeded ∉ chain dialTimeout ∧
    errorsAsNetError dialTimeout = true ∧
    isRetryable dialTimeout = false := by
  refine ⟨rfl, rfl, ?_, ?_, rfl, rfl⟩ <;> simp [dialTimeout, chain, chainAll]

/-- C5, amended: an error in whose chain `errors.As` finds a `net.Error`, that is not nil and
not `io.EOF`, and that matches neither `context.Canceled` nor `context.DeadlineExceeded`
under `errors.Is`, is retryable, whatever syscall code it may also wrap. -/
theorem isRetryable_net_error (err : GoError)
    (hnil : err.isNil = false) (heof : err.isEOF = false)
    (hc : errorsIs .canceled err = false) (hd : errorsIs .deadlineExceeded err = false)
    (hnet : errorsAsNetError err = true) :
    isRetryable err = true := by
  simp [isRetryable, hnil, heof, hc, hd, hnet]

/-- Witness of C5, amended: a `*net.OpError` around an `*os.SyscallError` with the unlisted code
`EACCES` is retryable. -/
theorem isRetryable_net_error_witness : isRetryable opErrorEACCES = true :=
  isRetryable_net_error opErrorEACCES rfl rfl rfl rfl rfl

/-! ## Lemmas on the reply encoder -/

/-- The high port byte of a port below 65536 is its quotient by 256. -/
theorem byte_hi (P : Nat) (hP : P ≤ 65535) : byte ((P : Int) / 256) = P / 256 := by
  unfold byte; omega

/-- The low port byte is the remainder by 256. -/
theorem byte_lo (P : Nat) : byte ((P : Int) % 256) = P % 256 := by
  unfold byte; omega

/-- The conversion `byte(len(host))` keeps the length modulo 256. -/
theorem byte_len (n : Nat) : byte (n : Int) = n % 256 := by
  unfold byte; omega

/-- The encoder only appends: what the buffer held stays in front of the frame. -/
theorem buildReply_append (buf : List Nat) (addr : TCPAddr) :
    buildReply buf addr = buf ++ buildReply [] addr := by
  unfold buildReply
  cases addr.IP.To4 <;> cases addr.IP.To16 <;> simp

/-- The frame starts with the protocol version byte. -/
theorem buildReply_head (addr : TCPAddr) : (buildReply [] addr).head? = some Ver := by
  unfold buildReply
  cases addr.IP.To4 <;> cases addr.IP.To16 <;> simp

/-- Two hex digits are produced for each byte. -/
theorem length_hexString : ∀ b : List Nat, (hexString b).length = 2 * b.length
  | [] => rfl
  | _ :: rest => by simp [hexString, length_hexString rest]; omega

/-- Every hex digit is an ASCII code. -/
theorem hexDigit_getD_lt (i : Nat) : hexDigit.getD i 0 < 128 := by
  by_cases h : i < 16
  · interval_cases i <;> simp [hexDigit]
  · have h2 : hexDigit[i]? = none := List.getElem?_eq_none (by simp [hexDigit]; omega)
    simp [List.getD_eq_getElem?_getD, h2]

/-- The hex text of a byte slice is ASCII. -/
theorem hexString_ascii : ∀ b : List Nat, ∀ x ∈ hexString b, x < 128
  | [], x, h => by simp [hexString] at h
  | tn :: rest, x, h => by
      simp only [hexString, List.mem_cons] at h
      rcases h with h | h | h
      · rw [h]; exact hexDigit_getD_lt _
      · rw [h]; exact hexDigit_getD_lt _
      · exact hexString_ascii rest x h

/-- The text of an invalid IP has 5 bytes when the IP is empty, otherwise one more than twice
the number of its bytes. -/
theorem length_IP_String (ip : IP) :
    (IP.String ip).length = if ip.length = 0 then 5 else 2 * ip.length + 1 := by
  unfold IP.String
  split <;> simp [length_hexString]

/-- The text of an invalid IP is ASCII. -/
theorem IP_String_ascii (ip : IP) : ∀ x ∈ IP.String ip, x < 128 := by
  intro x h
  unfold IP.String at h
  split at h
  · simp at h
    rcases h with h | h | h | h | h <;> omega
  · rcases List.mem_cons.mp h with h | h
    · omega
    · exact hexString_ascii ip x h

/-- The domain form for an IP whose length is neither 4 nor 16: the length byte is the
length of the text modulo 256. -/
theorem buildReply_domain (buf : List Nat) (ip : IP) (P : Int)
    (h4 : ip.length ≠ 4) (h16 : ip.length ≠ 16) :
    buildReply buf ⟨ip, P⟩
      = buf ++ [Ver, RepSuccess, 0x00, ATYPDomain, (IP.String ip).length % 256]
          ++ IP.String ip ++ [byte (P / 256), byte (P % 256)] := by
  simp [buildReply, IP.To4, IP.To16, h4, h16, byte_len]

/-- On a 16-byte IP whose first 12 bytes are not the IPv4-in-IPv6 prefix, `To4` is nil. -/
theorem IP.To4_eq_none (ip : IP) (hlen : ip.length = 16) (hmap : ip.take 12 ≠ v4InV6Prefix) :
    IP.To4 ip = none := by
  rcases ip with _ | ⟨x0, _ | ⟨x1, _ | ⟨x2, _ | ⟨x3, _ | ⟨x4, _ | ⟨x5, _ | ⟨x6, _ | ⟨x7, _ | ⟨x8, _ | ⟨x9, _ | ⟨x10, _ | ⟨x11, _ | ⟨x12, _ | ⟨x13, _ | ⟨x14, _ | ⟨x15, rest⟩⟩⟩⟩⟩⟩⟩⟩⟩⟩⟩⟩⟩⟩⟩⟩
  all_goals simp only [List.length_cons, List.length_nil] at hlen
  all_goals try omega
  have hrest : rest = [] := List.length_eq_zero.mp (by omega)
  subst hrest
  simp [v4InV6Prefix] at hmap
  simp [IP.To4, isZeros]
  intro h0 h1 h2 h3 h4 h5 h6 h7 h8 h9 h10 h11
  exact hmap h0 h1 h2 h3 h4 h5 h6 h7 h8 h9 h10 h11

/-- The writes of a concatenated trace. -/
theorem writes_append (t u : List Event) : writes (t ++ u) = writes t ++ writes u := by
  induction t with
  | nil => rfl
  | cons e t ih => cases e <;> simp [writes, ih]

/-- On every path `handleTCPConnect` writes once to the local connection: the bytes the
pooled slice holds, followed by the reply frame. -/
theorem writes_handleTCPConnect (env : Env) (address : String) :
    writes (handleTCPConnect env address).1
      = [env.pooled.bytes ++ buildReply [] env.localAddr] := by
  rw [← buildReply_append]
  unfold handleTCPConnect
  cases env.writeErr.isNil <;> cases env.tcpErr.isNil <;> simp [writes, writes_append]
  cases env.selected with
  | errCh err => cases hn : err.isNil <;> simp [writes, writes_append, hn]
  | ctxDone => simp [writes, writes_append]

/-! ## The reply encoder -/

/-- C6: for a local address whose IP is the 4-byte address `a.b.c.d` and a port `P` between 0
and 65535, the frame appended by `handleTCPConnect` is exactly the 10 bytes
`Ver, RepSuccess, 0, ATYPIPv4, a, b, c, d, P div 256, P mod 256`. -/
theorem buildReply_ipv4 (buf : List Nat) (a b c d P : Nat) (hP : P ≤ 65535) :
    buildReply buf ⟨[a, b, c, d], (P : Int)⟩
      = buf ++ [Ver, RepSuccess, 0x00, ATYPIPv4, a, b, c, d, P / 256, P % 256] := by
  simp [buildReply, IP.To4, byte_hi P hP, byte_lo P]

/-- Witness of C6: the frame for `127.0.0.1:1080`. -/
theorem buildReply_ipv4_witness :
    buildReply [] ⟨[127, 0, 0, 1], 1080⟩ = [5, 0, 0, 1, 127, 0, 0, 1, 4, 56] :=
  buildReply_ipv4 [] 127 0 0 1 1080 (by decide)

/-- C7: for a local address whose IP has 16 bytes and is not IPv4-mapped (its first 12 bytes
are not ten zeros followed by `0xff, 0xff`) and a port `P` between 0 and 65535, the frame is
exactly the 22 bytes `Ver, RepSuccess, 0, ATYPIPv6`, the 16 address bytes unchanged, and
`P div 256, P mod 256`. -/
theorem buildReply_ipv6 (buf : List Nat) (ip : IP) (P : Nat) (hlen : ip.length = 16)
    (hmap : ip.take 12 ≠ v4InV6Prefix) (hP : P ≤ 65535) :
    buildReply buf ⟨ip, (P : Int)⟩
      = buf ++ [Ver, RepSuccess, 0x00, ATYPIPv6] ++ ip ++ [P / 256, P % 256] := by
  simp [buildReply, IP.To4_eq_none ip hlen hmap, IP.To16, hlen, byte_hi P hP, byte_lo P]

/-- Witness of C7: the frame for `[2001:db8::1]:1080`. -/
theorem buildReply_ipv6_witness :
    buildReply [] ⟨docAddr6, 1080⟩
      = [5, 0, 0, 4, 0x20, 0x01, 0x0d, 0xb8, 0, 0, 0, 0, 0, 0, 0, 0, 0, 0, 0, 1, 4, 56] :=
  buildReply_ipv6 [] docAddr6 1080 rfl (by decide) (by decide)

/-- Counterexample to C8: for the IP of 128 zero bytes the frame is not in domain form with a
length byte equal to the number of host bytes, whatever the host text and the port bytes: the
text has 257 bytes and the length byte is 1. -/
theorem buildReply_domain_counterexample :
    ¬ ∃ host hi lo : Nat, ∃ text : List Nat, host = text.length ∧
      buildReply [] ⟨List.replicate 128 0, 0⟩
        = [Ver, RepSuccess, 0x00, ATYPDomain, host] ++ text ++ [hi, lo] := by
  rintro ⟨host, hi, lo, text, hhost, h⟩
  have hl : (List.replicate 128 0 : List Nat).length = 128 := List.length_replicate 128 0
  generalize List.replicate 128 0 = ip at h hl
  rw [buildReply_domain [] ip _ (by omega) (by omega)] at h
  have hlen := congrArg List.length h
  have h4 := congrArg (fun l => l.getD 4 0) h
  simp [length_IP_String, hl] at hlen h4
  omega

/-- C8, amended: for a local address whose IP has a length other than 4 and 16 and below 128
(the empty IP included) and a port `P` between 0 and 65535, the frame is in domain form:
`Ver, RepSuccess, 0, ATYPDomain`, one length byte equal to the number of host bytes, the host
bytes (the text of the address, all ASCII), and `P div 256, P mod 256`. -/
theorem buildReply_domain_short (buf : List Nat) (ip : IP) (P : Nat)
    (h4 : ip.length ≠ 4) (h16 : ip.length ≠ 16) (hshort : ip.length < 128) (hP : P ≤ 65535) :
    buildReply buf ⟨ip, (P : Int)⟩
        = buf ++ [Ver, RepSuccess, 0x00, ATYPDomain, (IP.String ip).length]
            ++ IP.String ip ++ [P / 256, P % 256] ∧
      ∀ x ∈ IP.String ip, x < 128 := by
  refine ⟨?_, IP_String_ascii ip⟩
  have hl : (IP.String ip).length % 256 = (IP.String ip).length := by
    rw [length_IP_String]
    split <;> omega
  rw [buildReply_domain buf ip _ h4 h16, hl, byte_hi P hP, byte_lo P]

/-- Witness of C8, amended: the frame for the nil IP and port 1080 carries the text `<nil>`. -/
theorem buildReply_domain_short_witness :
    buildReply [] ⟨[], 1080⟩ = [5, 0, 0, 3, 5, 60, 110, 105, 108, 62, 4, 56] :=
  (buildReply_domain_short [] [] 1080 (by decide) (by decide) (by decide) (by decide)).1

/-! ## The connect bridge -/

/-- Counterexample to C9: when the slice taken from the pool holds the stale byte `0xAA`, the
bytes written to the local connection start with that byte and not with the version byte:
they are not the reply frame. -/
theorem handleTCPConnect_stale_counterexample :
    writes (handleTCPConnect staleEnv "example.com:443").1
        = [[0xAA, 5, 0, 0, 1, 127, 0, 0, 1, 4, 56]] ∧
      buildReply [] staleEnv.localAddr = [5, 0, 0, 1, 127, 0, 0, 1, 4, 56] := by
  constructor <;> rfl

/-- C9, amended: `handleTCPConnect` does not reset the buffer. The bytes written to the local
connection are the bytes the pooled slice holds followed by the reply frame; when the pooled
slice has length 0, whatever its backing array holds, they are exactly the reply frame,
which starts with the protocol version byte. -/
theorem handleTCPConnect_writes_frame (env : Env) (address : String) :
    writes (handleTCPConnect env address).1
        = [env.pooled.bytes ++ buildReply [] env.localAddr] ∧
      (env.pooled.len = 0 →
        writes (handleTCPConnect env address).1 = [buildReply [] env.localAddr]) ∧
      (buildReply [] env.localAddr).head? = some Ver := by
  refine ⟨writes_handleTCPConnect env address, ?_, buildReply_head env.localAddr⟩
  intro h0
  rw [writes_handleTCPConnect]
  simp [Slice.bytes, h0]

/-- Witness of C9, amended: an empty slice over a used backing array gives the plain frame. -/
theorem handleTCPConnect_writes_frame_witness :
    writes (handleTCPConnect reusedEnv "example.com:443").1
      = [[5, 0, 0, 1, 127, 0, 0, 1, 4, 56]] :=
  (handleTCPConnect_writes_frame reusedEnv "example.com:443").2.1 rfl

/-- C10: if the reply was written and `h.client.TCP` fails with error `e`,
`handleTCPConnect` returns exactly `e`; after the open-stream call it only logs and releases
the buffer: no relay loop is started and `Close` is called on no stream. -/
theorem handleTCPConnect_open_failure (env : Env) (address : String)
    (hw : env.writeErr.isNil = true) (he : env.tcpErr.isNil = false) :
    (handleTCPConnect env address).2 = env.tcpErr ∧
      (handleTCPConnect env address).1
        = [.log .info, .poolGet, .connWrite (buildReply env.pooled.bytes env.localAddr),
            .clientTCP address, .log .error, .poolPut] ∧
      (∀ r, Event.goCopy r ∉ (handleTCPConnect env address).1) ∧
      (∀ sid, Event.strmClose sid ∉ (handleTCPConnect env address).1) := by
  simp [handleTCPConnect, hw, he]

/-- Witness of C10: a refused open returns the error of the transport. -/
theorem handleTCPConnect_open_failure_witness :
    (handleTCPConnect refusedEnv "example.com:443").2 = opErrorEACCES :=
  (handleTCPConnect_open_failure refusedEnv "example.com:443" rfl rfl).1

/-! ## More lemmas on traces and addresses -/

/-- The closes of a concatenated trace. -/
theorem closes_append (t u : List Event) : closes (t ++ u) = closes t ++ closes u := by
  induction t with
  | nil => rfl
  | cons e t ih => cases e <;> simp [closes, ih]

/-- On a 16-byte IP that starts with the IPv4-in-IPv6 prefix, `To4` is the last 4 bytes. -/
theorem IP.To4_mapped (ip : IP) (hlen : ip.length = 16) (hmap : ip.take 12 = v4InV6Prefix) :
    IP.To4 ip = some (ip.drop 12) := by
  rcases ip with _ | ⟨x0, _ | ⟨x1, _ | ⟨x2, _ | ⟨x3, _ | ⟨x4, _ | ⟨x5, _ | ⟨x6, _ | ⟨x7, _ | ⟨x8, _ | ⟨x9, _ | ⟨x10, _ | ⟨x11, _ | ⟨x12, _ | ⟨x13, _ | ⟨x14, _ | ⟨x15, rest⟩⟩⟩⟩⟩⟩⟩⟩⟩⟩⟩⟩⟩⟩⟩⟩
  all_goals simp only [List.length_cons, List.length_nil] at hlen
  all_goals try omega
  have hrest : rest = [] := List.length_eq_zero.mp (by omega)
  subst hrest
  simp [v4InV6Prefix] at hmap
  obtain ⟨h0, h1, h2, h3, h4, h5, h6, h7, h8, h9, h10, h11⟩ := hmap
  subst h0 h1 h2 h3 h4 h5 h6 h7 h8 h9 h10 h11
  simp [IP.To4, isZeros]

/-- When `precededBy p q` holds of a trace, every event of it that satisfies `q` has an event
that satisfies `p` strictly before it. -/
theorem precededBy_sound (p q : Event → Bool) :
    ∀ t : List Event, precededBy p q t = true →
      ∀ pre e post, t = pre ++ e :: post → q e = true → ∃ x ∈ pre, p x = true
  | [], _, pre, e, post, ht, _ => by simp at ht
  | x :: t, h, [], e, post, ht, hq => by
      simp at ht
      obtain ⟨rfl, -⟩ := ht
      simp [precededBy, hq] at h
  | x :: t, h, y :: pre, e, post, ht, hq => by
      simp at ht
      obtain ⟨rfl, ht⟩ := ht
      simp only [precededBy, Bool.and_eq_true, Bool.or_eq_true] at h
      rcases h.2 with hp | hrec
      · exact ⟨x, List.mem_cons_self _ _, hp⟩
      · obtain ⟨z, hz, hpz⟩ := precededBy_sound p q t hrec pre e post ht hq
        exact ⟨z, List.mem_cons_of_mem _ hz, hpz⟩

/-! ## Lemmas on the result channel -/

/-- The invariant holds right after the two `go` statements. -/
theorem Bridge.inv_start : Bridge.start.Inv := by
  simp [Bridge.Inv, Bridge.start, Goroutine.finished, Orchestrator.receives]

/-- Every move keeps the invariant. -/
theorem Bridge.inv_step (s s2 : Bridge) (a : Action) (hi : s.Inv) (hs : s.step a = some s2) :
    s2.Inv := by
  obtain ⟨h1, h2, h3⟩ := hi
  cases a with
  | copyReturns r err =>
      cases r <;> simp only [Bridge.step, Bridge.relay] at hs <;> split at hs <;>
        simp at hs <;> subst hs <;>
        simp_all [Bridge.Inv, Bridge.setRelay, Goroutine.finished]
  | send r =>
      cases r <;> simp only [Bridge.step, Bridge.relay] at hs <;> split at hs <;>
        try (simp at hs)
      all_goals
        obtain ⟨_, rfl⟩ := hs
        simp_all [Bridge.Inv, Bridge.setRelay, Goroutine.finished]
        try omega
  | recv =>
      simp only [Bridge.step] at hs
      split at hs <;> simp at hs
      subst hs
      simp_all [Bridge.Inv, Orchestrator.receives]
  | ctxDone =>
      simp only [Bridge.step] at hs
      split at hs <;> simp at hs
      subst hs
      simp_all [Bridge.Inv, Orchestrator.receives]

/-- Every sequence of moves keeps the invariant. -/
theorem Bridge.inv_run : ∀ (acts : List Action) (s s2 : Bridge), s.Inv →
    s.run acts = some s2 → s2.Inv
  | [], s, s2, hi, hr => by
      simp [Bridge.run] at hr
      exact hr ▸ hi
  | a :: rest, s, s2, hi, hr => by
      simp only [Bridge.run] at hr
      split at hr
      · next s1 h1 => exact Bridge.inv_run rest s1 s2 (Bridge.inv_step s s1 a hi h1) hr
      · simp at hr

/-- A relay goroutine accounts for at most one send. -/
theorem Goroutine.finished_le (g : Goroutine) : g.finished ≤ 1 := by
  cases g <;> simp [Goroutine.finished]

/-- Under the invariant a relay goroutine that stands at its send can complete it. -/
theorem Bridge.inv_not_blocked (s : Bridge) (hi : s.Inv) (r : Relay) : s.blocked r = false := by
  obtain ⟨h1, h2, h3⟩ := hi
  have ha := s.connFromStrm.finished_le
  have hb := s.strmFromConn.finished_le
  cases r <;> simp only [Bridge.blocked, Bridge.relay] <;> split <;> try rfl
  all_goals
    next err he =>
    have hz : (Goroutine.sending err).finished = 0 := rfl
    have hlt : s.errCh.length < errChCap := by
      rw [he, hz] at h1
      unfold errChCap
      omega
    simp [Bridge.step, Bridge.relay, he, hlt]

/-! ## More lemmas on the classifier -/

/-- The comparison `errno == k` holds exactly of the `syscall.Errno` value `k`. -/
theorem GoError.eqErrno_iff (e : GoError) (k : Nat) : e.eqErrno k = true ↔ e = .errno k := by
  cases e <;> simp [GoError.eqErrno]

mutual
/-- An `*os.SyscallError` anywhere in the chain is found by `errors.As`. -/
theorem errorsAsSyscallError_of_mem_chain (s : String) (x : GoError) :
    ∀ err : GoError, GoError.syscallError s x ∈ chain err →
      (errorsAsSyscallError err).isSome = true
  | .nil, h => by simp [chain] at h
  | .ioEOF, h => by simp [chain] at h
  | .canceled, h => by simp [chain] at h
  | .deadlineExceeded, h => by simp [chain] at h
  | .errno _, h => by simp [chain] at h
  | .syscallError _ _, _ => by simp [errorsAsSyscallError]
  | .other _ _ _ kids, h => by
      have h2 : GoError.syscallError s x ∈ chainAll kids := by simpa [chain] using h
      simpa [errorsAsSyscallError] using errorsAsSyscallErrorAny_of_mem_chainAll s x kids h2
/-- The list form of `errorsAsSyscallError_of_mem_chain`. -/
theorem errorsAsSyscallErrorAny_of_mem_chainAll (s : String) (x : GoError) :
    ∀ es : List GoError, GoError.syscallError s x ∈ chainAll es →
      (errorsAsSyscallErrorAny es).isSome = true
  | [], h => by simp [chainAll] at h
  | e :: es, h => by
      rcases List.mem_append.mp (by simpa [chainAll] using h) with h1 | h1
      · have h2 := errorsAsSyscallError_of_mem_chain s x e h1
        cases h3 : errorsAsSyscallError e with
        | none => simp [h3] at h2
        | some y => simp [errorsAsSyscallErrorAny, h3]
      · cases h3 : errorsAsSyscallError e with
        | none => simpa [errorsAsSyscallErrorAny, h3] using
            errorsAsSyscallErrorAny_of_mem_chainAll s x es h1
        | some y => simp [errorsAsSyscallErrorAny, h3]
end

mutual
/-- What `errors.As` finds is the `Err` field of an `*os.SyscallError` of the chain. -/
theorem mem_chain_of_errorsAsSyscallError (x : GoError) :
    ∀ err : GoError, errorsAsSyscallError err = some x →
      ∃ s, GoError.syscallError s x ∈ chain err
  | .nil, h => by simp [errorsAsSyscallError] at h
  | .ioEOF, h => by simp [errorsAsSyscallError] at h
  | .canceled, h => by simp [errorsAsSyscallError] at h
  | .deadlineExceeded, h => by simp [errorsAsSyscallError] at h
  | .errno _, h => by simp [errorsAsSyscallError] at h
  | .syscallError s e, h => by
      simp [errorsAsSyscallError] at h
      exact ⟨s, by simp [chain, h]⟩
  | .other _ _ _ kids, h => by
      obtain ⟨s, hs⟩ := mem_chainAll_of_errorsAsSyscallErrorAny x kids
        (by simpa [errorsAsSyscallError] using h)
      exact ⟨s, by simp [chain, hs]⟩
/-- The list form of `mem_chain_of_errorsAsSyscallError`. -/
theorem mem_chainAll_of_errorsAsSyscallErrorAny (x : GoError) :
    ∀ es : List GoError, errorsAsSyscallErrorAny es = some x →
      ∃ s, GoError.syscallError s x ∈ chainAll es
  | [], h => by simp [errorsAsSyscallErrorAny] at h
  | e :: es, h => by
      cases h3 : errorsAsSyscallError e with
      | none =>
          obtain ⟨s, hs⟩ := mem_chainAll_of_errorsAsSyscallErrorAny x es
            (by simpa [errorsAsSyscallErrorAny, h3] using h)
          exact ⟨s, by simp [chainAll, hs]⟩
      | some y =>
          have hy : y = x := by simpa [errorsAsSyscallErrorAny, h3] using h
          obtain ⟨s, hs⟩ := mem_chain_of_errorsAsSyscallError x e (hy ▸ h3)
          exact ⟨s, by simp [chainAll, hs]⟩
end

/-- When no `net.Error` is in the chain, the `Err` field found by `errors.As` is not a
`syscall.Errno` (which is itself a `net.Error`), so the branch of the `*os.SyscallError`
answers false. -/
theorem isRetryable_syscall_branch (err x : GoError)
    (hnet : errorsAsNetError err = false) (hsys : errorsAsSyscallError err = some x) :
    isRetryable err = false := by
  obtain ⟨s, hs⟩ := mem_chain_of_errorsAsSyscallError x err hsys
  have hx : errorsAsNetError x = false := by
    cases hx : errorsAsNetError x with
    | false => rfl
    | true =>
        have := errorsAsNetError_of_mem_chain (.syscallError s x)
          (by simpa [errorsAsNetError] using hx) err hs
        simp [hnet] at this
  have hne : ∀ k, x.eqErrno k = false := by
    intro k
    cases x <;> simp [GoError.eqErrno, errorsAsNetError] at hx ⊢
  unfold isRetryable
  split
  · rfl
  · split
    · rfl
    · simp [hnet, hsys, hne]

/-! ## The connect bridge, continued -/

/-- C11: if writing the reply frame to the local connection fails with error `e`,
`handleTCPConnect` returns exactly `e` at once: after the write only the buffer is released,
the transport is never asked to open a stream and no relay loop is started. -/
theorem handleTCPConnect_write_failure (env : Env) (address : String)
    (hw : env.writeErr.isNil = false) :
    (handleTCPConnect env address).2 = env.writeErr ∧
      (handleTCPConnect env address).1
        = [.log .info, .poolGet, .connWrite (buildReply env.pooled.bytes env.localAddr),
            .poolPut] ∧
      (∀ a, Event.clientTCP a ∉ (handleTCPConnect env address).1) ∧
      (∀ r, Event.goCopy r ∉ (handleTCPConnect env address).1) := by
  simp [handleTCPConnect, hw]

/-- Witness of C11: a failed write returns the error of the write. -/
theorem handleTCPConnect_write_failure_witness :
    (handleTCPConnect brokenPipeEnv "example.com:443").2 = opErrorEACCES :=
  (handleTCPConnect_write_failure brokenPipeEnv "example.com:443" rfl).1

/-- C12: once the reply write and the stream open have both succeeded, `handleTCPConnect`
returns nil, whatever the first relay loop reports and also when shutdown fires first. -/
theorem handleTCPConnect_returns_nil (env : Env) (address : String)
    (hw : env.writeErr.isNil = true) (ht : env.tcpErr.isNil = true) :
    (handleTCPConnect env address).2 = .nil := by
  simp [handleTCPConnect, hw, ht]

/-- Witness of C12: a relay loop that reports an error still gives the result nil. -/
theorem handleTCPConnect_returns_nil_witness :
    (handleTCPConnect relayFailedEnv "example.com:443").2 = .nil :=
  handleTCPConnect_returns_nil relayFailedEnv "example.com:443" rfl rfl

/-- C13: `handleTCPConnect` calls `Close` exactly once, on the stream it opened, when the
write and the open both succeeded (on every path through the `select`), and never when the
open failed or was not attempted. -/
theorem handleTCPConnect_closes_once (env : Env) (address : String) :
    closes (handleTCPConnect env address).1
      = if env.writeErr.isNil && env.tcpErr.isNil then [env.sid] else [] := by
  unfold handleTCPConnect
  cases env.writeErr.isNil <;> cases env.tcpErr.isNil <;> simp [closes, closes_append]
  cases env.selected with
  | errCh err => cases hn : err.isNil <;> simp [closes, closes_append, hn]
  | ctxDone => simp [closes, closes_append]

/-- C16: in every execution of `handleTCPConnect` the reply is written at most once and the
stream opened at most once, every open-stream call has the write strictly before it, every
relay start has the open-stream call strictly before it, and a relay loop is started only
when the write and the open both succeeded, each having happened exactly once. -/
theorem handleTCPConnect_order (env : Env) (address : String) :
    ((handleTCPConnect env address).1.countP Event.isWrite ≤ 1 ∧
      (handleTCPConnect env address).1.countP Event.isOpen ≤ 1) ∧
    (∀ pre e post, (handleTCPConnect env address).1 = pre ++ e :: post →
      e.isOpen = true → ∃ w ∈ pre, w.isWrite = true) ∧
    (∀ pre e post, (handleTCPConnect env address).1 = pre ++ e :: post →
      e.isRelayStart = true → ∃ o ∈ pre, o.isOpen = true) ∧
    ((∃ e ∈ (handleTCPConnect env address).1, e.isRelayStart = true) →
      env.writeErr.isNil = true ∧ env.tcpErr.isNil = true ∧
      (handleTCPConnect env address).1.countP Event.isWrite = 1 ∧
      (handleTCPConnect env address).1.countP Event.isOpen = 1) := by
  have key : ((handleTCPConnect env address).1.countP Event.isWrite = 1 ∧
      (handleTCPConnect env address).1.countP Event.isOpen ≤ 1) ∧
      precededBy Event.isWrite Event.isOpen (handleTCPConnect env address).1 = true ∧
      precededBy Event.isOpen Event.isRelayStart (handleTCPConnect env address).1 = true ∧
      ((∃ e ∈ (handleTCPConnect env address).1, e.isRelayStart = true) →
        env.writeErr.isNil = true ∧ env.tcpErr.isNil = true ∧
        (handleTCPConnect env address).1.countP Event.isOpen = 1) := by
    unfold handleTCPConnect
    cases env.writeErr.isNil <;> cases env.tcpErr.isNil <;>
      simp [precededBy, Event.isWrite, Event.isOpen, Event.isRelayStart, List.countP_cons]
    cases env.selected with
    | errCh err =>
        cases hn : err.isNil <;>
          simp [precededBy, Event.isWrite, Event.isOpen, Event.isRelayStart, List.countP_cons,
            List.countP_append, hn]
    | ctxDone =>
        simp [precededBy, Event.isWrite, Event.isOpen, Event.isRelayStart, List.countP_cons,
          List.countP_append]
  obtain ⟨⟨hw, ho⟩, h1, h2, h3⟩ := key
  refine ⟨⟨by omega, ho⟩, precededBy_sound _ _ _ h1, precededBy_sound _ _ _ h2, ?_⟩
  intro h
  obtain ⟨a, b, c⟩ := h3 h
  exact ⟨a, b, hw, c⟩

/-- Witness of C16: in the call where a relay loop reports an error, a relay loop was
started, so the write and the open succeeded and happened once each. -/
theorem handleTCPConnect_order_witness :
    relayFailedEnv.writeErr.isNil = true ∧ relayFailedEnv.tcpErr.isNil = true ∧
      (handleTCPConnect relayFailedEnv "example.com:443").1.countP Event.isWrite = 1 ∧
      (handleTCPConnect relayFailedEnv "example.com:443").1.countP Event.isOpen = 1 :=
  (handleTCPConnect_order relayFailedEnv "example.com:443").2.2.2
    ⟨.goCopy .connFromStrm, by simp [handleTCPConnect, relayFailedEnv, GoError.isNil], rfl⟩

/-! ## The command dispatcher -/

/-- C14: for a request whose command is `socks5.CmdUDP`, `TCPHandle` logs, calls
`handleUDPAssociate` and returns exactly its result; it never calls `handleTCPConnect`. -/
theorem TCPHandle_udp_associate (udpErr : GoError) (env : Env) (address : String) :
    (TCPHandle CmdUDP udpErr env address).2 = udpErr ∧
      (TCPHandle CmdUDP udpErr env address).1 = [.log .debug, .handleUDPAssociate] ∧
      ∀ events, Step.handleTCPConnect events ∉ (TCPHandle CmdUDP udpErr env address).1 := by
  simp [TCPHandle]

/-- C15: for a request whose command is neither CONNECT nor UDP_ASSOCIATE, `TCPHandle` only
logs and returns nil: it calls neither `handleTCPConnect` nor `handleUDPAssociate`. -/
theorem TCPHandle_unsupported (cmd : Nat) (udpErr : GoError) (env : Env) (address : String)
    (hc : cmd ≠ CmdConnect) (hu : cmd ≠ CmdUDP) :
    (TCPHandle cmd udpErr env address).2 = .nil ∧
      (TCPHandle cmd udpErr env address).1 = [.log .debug] ∧
      (∀ events, Step.handleTCPConnect events ∉ (TCPHandle cmd udpErr env address).1) ∧
      Step.handleUDPAssociate ∉ (TCPHandle cmd udpErr env address).1 := by
  simp [TCPHandle, hc, hu]

/-- Witness of C15: a BIND request is dropped with the result nil. -/
theorem TCPHandle_unsupported_witness :
    (TCPHandle CmdBind opErrorEACCES relayFailedEnv "example.com:443").2 = .nil :=
  (TCPHandle_unsupported CmdBind opErrorEACCES relayFailedEnv "example.com:443"
    (by decide) (by decide)).1

/-! ## The result channel -/

/-- C17: in every state the two relay goroutines and the `select` can reach, at most two
values were sent on `errCh` (its capacity), at most one was received, none was received when
the `select` ended by shutdown, and no relay goroutine is blocked at its send. -/
theorem errCh_never_blocks (acts : List Action) (s : Bridge)
    (hr : Bridge.start.run acts = some s) :
    s.sent ≤ errChCap ∧ s.recvd ≤ 1 ∧ (s.main.isShutdown = true → s.recvd = 0) ∧
      ∀ r, s.blocked r = false := by
  have hi := Bridge.inv_run acts Bridge.start s Bridge.inv_start hr
  have ha := s.connFromStrm.finished_le
  have hb := s.strmFromConn.finished_le
  obtain ⟨h1, h2, h3⟩ := hi
  refine ⟨by simp [errChCap]; omega, ?_, ?_, Bridge.inv_not_blocked s ⟨h1, h2, h3⟩⟩
  · rw [h3]; cases s.main <;> simp [Orchestrator.receives]
  · intro hsd
    rw [h3]
    cases hm : s.main <;> simp [hm, Orchestrator.isShutdown, Orchestrator.receives] at hsd ⊢

/-- Witness of C17: both relay loops finish after shutdown made the caller return; both
sends complete, nothing is received. -/
theorem errCh_never_blocks_witness :
    ∃ s, Bridge.start.run lateSends = some s ∧ s.sent = 2 ∧ s.recvd = 0 ∧
      ∀ r, s.blocked r = false :=
  ⟨_, rfl, rfl, rfl, (errCh_never_blocks lateSends _ rfl).2.2.2⟩

/-! ## The reply encoder, continued -/

/-- C18: for a local address whose IP is a 16-byte IPv4-mapped address (it starts with ten
zero bytes and `0xff, 0xff`), the frame carries the IPv4 address type and exactly the last 4
bytes of the IP, 10 bytes in all, and not the IPv6 address type. -/
theorem buildReply_mapped (buf : List Nat) (ip : IP) (P : Int) (hlen : ip.length = 16)
    (hmap : ip.take 12 = v4InV6Prefix) :
    buildReply buf ⟨ip, P⟩
        = buf ++ [Ver, RepSuccess, 0x00, ATYPIPv4] ++ ip.drop 12
            ++ [byte (P / 256), byte (P % 256)] ∧
      (ip.drop 12).length = 4 ∧
      (buildReply [] ⟨ip, P⟩).length = 10 ∧
      (buildReply [] ⟨ip, P⟩).getD 3 0 ≠ ATYPIPv6 := by
  have hd : (ip.drop 12).length = 4 := by simp [hlen]
  have hb : ∀ b : List Nat, buildReply b ⟨ip, P⟩
      = b ++ [Ver, RepSuccess, 0x00, ATYPIPv4] ++ ip.drop 12
          ++ [byte (P / 256), byte (P % 256)] := by
    intro b
    simp [buildReply, IP.To4_mapped ip hlen hmap]
  refine ⟨hb buf, hd, ?_, ?_⟩
  · rw [hb []]
    simp [hd]
  · rw [hb []]
    simp [ATYPIPv4, ATYPIPv6]

/-- Witness of C18: the frame for `::ffff:127.0.0.1` and port 1080. -/
theorem buildReply_mapped_witness :
    buildReply [] ⟨IPv4 127 0 0 1, 1080⟩ = [5, 0, 0, 1, 127, 0, 0, 1, 4, 56] :=
  (buildReply_mapped [] (IPv4 127 0 0 1) 1080 rfl rfl).1

/-! ## The classifier, continued -/

/-- An error that is not nil, not `io.EOF`, matches neither context sentinel and has a
`syscall.Errno` anywhere in its chain is retryable, whatever the code: the `net.Error` test
answers before the seven comparisons are reached. -/
theorem isRetryable_errno_in_chain (err : GoError) (c : Nat)
    (hmem : GoError.errno c ∈ chain err)
    (hc : errorsIs .canceled err = false) (hd : errorsIs .deadlineExceeded err = false) :
    isRetryable err = true := by
  have hnet : errorsAsNetError err = true :=
    errorsAsNetError_of_mem_chain (.errno c) (by simp [errorsAsNetError]) err hmem
  have hnil : err.isNil = false := by
    cases err <;> simp [GoError.isNil, chain] at hmem ⊢
  have heof : err.isEOF = false := by
    cases err <;> simp [GoError.isEOF, chain] at hmem ⊢
  simp [isRetryable, hnil, heof, hc, hd, hnet]

/-- C19, the code at the failing inputs: for `&os.SyscallError{"connect", syscall.EACCES}`,
which is not nil, not `io.EOF` and matches no context sentinel, `errors.As` finds the
`*os.SyscallError` and its `Err` is the unlisted code `EACCES`, yet the classifier answers
true; it also answers true for a listed code one level deeper, where the `Err` found is an
`*os.SyscallError` and not an errno. -/
theorem isRetryable_unlisted_errno :
    (EACCES ∉ transientErrnos ∧
      unlistedSyscallError.isNil = false ∧ unlistedSyscallError.isEOF = false ∧
      errorsIs .canceled unlistedSyscallError = false ∧
      errorsIs .deadlineExceeded unlistedSyscallError = false ∧
      errorsAsSyscallError unlistedSyscallError = some (.errno EACCES) ∧
      isRetryable unlistedSyscallError = true) ∧
    (errorsAsSyscallError nestedSyscallError
        = some (.syscallError "read" (.errno ECONNRESET)) ∧
      errorsIs .canceled nestedSyscallError = false ∧
      errorsIs .deadlineExceeded nestedSyscallError = false ∧
      isRetryable nestedSyscallError = true) := by
  refine ⟨⟨by decide, rfl, rfl, rfl, rfl, rfl, rfl⟩, rfl, rfl, rfl, rfl⟩

/-- Counterexample to C20: the join of `io.EOF` and the cancellation error of package `net`
wraps `io.EOF` without being it, has no context sentinel, no `net.Error` and no
`*os.SyscallError` in its chain, and yet it is classified as not retryable: the
cancellation error matches `context.Canceled` through its `Is` method. -/
theorem isRetryable_wrapped_eof_counterexample :
    GoError.ioEOF ∈ chain eofJoinCanceled ∧ eofJoinCanceled.isEOF = false ∧
    GoError.canceled ∉ chain eofJoinCanceled ∧
    GoError.deadlineExceeded ∉ chain eofJoinCanceled ∧
    errorsAsNetError eofJoinCanceled = false ∧
    errorsAsSyscallError eofJoinCanceled = none ∧
    (∀ s x, GoError.syscallError s x ∉ chain eofJoinCanceled) ∧
    isRetryable eofJoinCanceled = false := by
  refine ⟨?_, rfl, ?_, ?_, rfl, rfl, ?_, rfl⟩ <;> simp [eofJoinCanceled, chain, chainAll]

/-- C20, amended: an error that wraps `io.EOF` without being `io.EOF` itself, that matches
neither `context.Canceled` nor `context.DeadlineExceeded` under `errors.Is`, and in whose
chain `errors.As` finds no `net.Error` and no `*os.SyscallError`, is retryable. -/
theorem isRetryable_wrapped_eof (err : GoError) (hwrap : GoError.ioEOF ∈ chain err)
    (heof : err.isEOF = false)
    (hc : errorsIs .canceled err = false) (hd : errorsIs .deadlineExceeded err = false)
    (hnet : errorsAsNetError err = false) (hsys : errorsAsSyscallError err = none) :
    isRetryable err = true := by
  have hnil : err.isNil = false := by
    cases err <;> simp [GoError.isNil, chain] at hwrap ⊢
  simp [isRetryable, hnil, heof, hc, hd, hnet, hsys]

/-- Witness of C20, amended: a plain error wrapping `io.EOF`. -/
theorem isRetryable_wrapped_eof_witness :
    isRetryable (.other false false false [.ioEOF]) = true :=
  isRetryable_wrapped_eof (.other false false false [.ioEOF]) (by simp [chain, chainAll])
    rfl rfl rfl rfl rfl

end Paqet
